import Mathlib

/-!
Verification of the BRAKES road-intervention estimation frontend core:
the API client (`src/unnamed/part_000`, an axios wrapper), the upload page
state (`src/frontend/brakes-estimator-fn/src/pages/Upload.tsx`) and the
results page derivations (`src/frontend/brakes-estimator-fn/src/pages/Results.tsx`).

The embedding is shallow: TypeScript numbers become `ℚ` (byte sizes and
percentages, which the code only ever holds as integers, become `Nat`),
strings become `String`, optional/nullable values become `Option`, and the
React `useState` cells of a page become the fields of an explicit state
structure with the event handlers as a step function.  Network effects are
reified as `HttpRequest` values: a function "initiates a transfer" exactly
when it returns (or emits) such a request.
-/

namespace Brakes

/-! ## Data model (TypeScript interfaces of src/unnamed/part_000) -/

/-- `Intervention` interface: one extracted road-safety intervention. -/
structure Intervention where
  type : String
  quantity : ℚ
  unit : String
  location : String
  confidence : ℚ
  extraction_method : String
deriving DecidableEq, Repr

/-- `Material` interface: one priced material line. -/
structure Material where
  name : String
  quantity : ℚ
  unit : String
  unit_price : ℚ
  total_cost : ℚ
  irc_clause : String
  price_source : String
  fetched_date : String
deriving DecidableEq, Repr

/-- `EstimateItem` interface: one matched intervention with its materials.
The `audit_trail` field is typed `Record<string, any>` in the source; it is
kept opaque here as a list of key/value pairs, since no verified claim
inspects its contents. -/
structure EstimateItem where
  intervention : Intervention
  materials : List Material
  total_cost : ℚ
  audit_trail : List (String × String)
  assumptions : List String
deriving DecidableEq, Repr

/-- `Estimate` interface: the full, durable result addressed by id. -/
structure Estimate where
  estimate_id : String
  filename : String
  created_at : String
  status : String
  items : List EstimateItem
  total_cost : ℚ
  confidence : ℚ
  metadata : List (String × String)
deriving DecidableEq, Repr

/-- The `verification` sub-object of `EstimateResponse`. -/
structure VerificationTally where
  status : String
  passed_count : Nat
  warning_count : Nat
  error_count : Nat
deriving DecidableEq, Repr

/-- One element of `EstimateResponse.items`. -/
structure ResponseItem where
  intervention_type : String
  quantity : ℚ
  unit : String
  location : String
  confidence : ℚ
  total_cost : ℚ
  materials_count : Nat
  warnings : List String
deriving DecidableEq, Repr

/-- `EstimateResponse` interface: the summary returned by `POST /api/upload`. -/
structure EstimateResponse where
  success : Bool
  estimate_id : String
  filename : String
  status : String
  extraction_method : String
  extraction_confidence : ℚ
  interventions_found : Nat
  total_cost : ℚ
  overall_confidence : ℚ
  processing_time_ms : ℚ
  verification : VerificationTally
  metadata : List (String × String)
  items : List ResponseItem
deriving DecidableEq, Repr

/-- The part of a DOM `File` object the client reads: `name`, `size`
(bytes) and `type` (declared media type). -/
structure JsFile where
  name : String
  size : Nat
  type : String
deriving DecidableEq, Repr

/-- HTTP method of a reified request. -/
inductive HttpMethod
  | get
  | post
  | delete
deriving DecidableEq, Repr

/-- A reified HTTP request of the axios client: method, path and query
parameters (the `params` object, serialized as key/value strings). -/
structure HttpRequest where
  method : HttpMethod
  path : String
  params : List (String × String)
deriving DecidableEq, Repr

/-! ## Confidence classification (Results.tsx, `getConfidenceBadge`) -/

/-- The three visual badges `getConfidenceBadge` can render. -/
inductive ConfidenceBadge
  | high
  | medium
  | reviewNeeded
deriving DecidableEq, Repr

/-- `getConfidenceBadge` (Results.tsx lines 153-178): computes
`percent = confidence * 100` and branches on `percent >= 95`, then
`percent >= 80`, else the review-needed badge. -/
def getConfidenceBadge (confidence : ℚ) : ConfidenceBadge :=
  let percent := confidence * 100
  if percent ≥ 95 then .high
  else if percent ≥ 80 then .medium
  else .reviewNeeded

/-! ## Row expansion (Results.tsx, `toggleRow`) -/

/-- `toggleRow` (Results.tsx lines 81-91): copies the previous
`expandedRows` set, deletes `index` if present, inserts it otherwise. -/
def toggleRow (index : Nat) (prev : Finset Nat) : Finset Nat :=
  if index ∈ prev then prev.erase index else insert index prev

/-- The body of `toggleRow` only updates the local `expandedRows` state: it
emits no HTTP request.  The effect view pairs the new set with the (empty)
list of requests the handler issues. -/
def toggleRowEffects (index : Nat) (prev : Finset Nat) :
    Finset Nat × List HttpRequest :=
  (toggleRow index prev, [])

/-! ## Listing params (part_000, `listEstimates`) -/

/-- JavaScript truthiness of an optional string: `undefined` and the empty
string are falsy. -/
def jsTruthy : Option String → Bool
  | none => false
  | some s => s ≠ ""

/-- Default of the `limit` parameter of `listEstimates`. -/
def listEstimatesDefaultLimit : Nat := 20

/-- Default of the `offset` parameter of `listEstimates`. -/
def listEstimatesDefaultOffset : Nat := 0

/-- The query parameters `listEstimates` (part_000 lines 218-237) sends:
`{ limit, offset }`, plus `status_filter` only when the given
`statusFilter` is truthy. -/
def listEstimatesParams (limit offset : Nat) (statusFilter : Option String) :
    List (String × String) :=
  let params := [("limit", toString limit), ("offset", toString offset)]
  if jsTruthy statusFilter then
    params ++ [("status_filter", statusFilter.getD "")]
  else
    params

/-- The request `listEstimates` performs: `GET /api/estimates` with the
parameters above. -/
def listEstimatesRequest (limit offset : Nat) (statusFilter : Option String) :
    HttpRequest :=
  { method := .get
    path := "/api/estimates"
    params := listEstimatesParams limit offset statusFilter }

/-! ## Error normalization (part_000, `handleApiError`) -/

/-- The `ApiError` interface: the structured error envelope the backend
returns on failure.  Its `message` field is a (possibly empty) string. -/
structure ApiErrorEnvelope where
  error : Bool
  status_code : Nat
  message : String
deriving DecidableEq, Repr

/-- The shape of an axios failure, following the three branches
`handleApiError` distinguishes: a response arrived (whose body may or may
not parse as an `ApiError` envelope), a request was made but no response
arrived, or the request could not be set up. -/
inductive AxiosFailure
  | response (status : Nat) (data : Option ApiErrorEnvelope)
  | noResponse
  | setup (message : String)
deriving DecidableEq, Repr

/-- Anything a client operation can catch: an axios error or an unknown
(non-axios) exception. -/
inductive CaughtError
  | axios (e : AxiosFailure)
  | unknown
deriving DecidableEq, Repr

/-- The fallback message `handleApiError` builds from the HTTP status when
the envelope supplies no truthy message. -/
def apiErrorFallbackMessage (status : Nat) : String :=
  "API Error: " ++ toString status

/-- `handleApiError` (part_000 lines 118-139): normalizes every caught
failure into the message of the single `Error` it throws.  In the response
branch the source reads `apiError?.message || fallback`: an absent envelope
or an empty `message` string is falsy and selects the fallback. -/
def handleApiError : CaughtError → String
  | .axios (.response status data) =>
    match data with
    | some env =>
      if env.message = "" then apiErrorFallbackMessage status else env.message
    | none => apiErrorFallbackMessage status
  | .axios .noResponse =>
    "Network error: Unable to reach the server. Please check your connection."
  | .axios (.setup m) => "Request error: " ++ m
  | .unknown => "An unexpected error occurred"

/-- Every client operation wraps its body in `try/catch` with
`handleApiError(error)` in the catch: a raw failure value is mapped to an
`Except.error` carrying only the normalized message string. -/
def apiCallResult {α : Type} (raw : Except CaughtError α) : Except String α :=
  match raw with
  | .ok a => .ok a
  | .error e => .error (handleApiError e)

/-! ## Upload validation (part_000, `uploadPDF`) -/

/-- `MAX_SIZE` of `uploadPDF` (part_000 line 159): `25 * 1024 * 1024`. -/
def MAX_SIZE : Nat := 25 * 1024 * 1024

/-- Outcome of the synchronous prefix of `uploadPDF`: either a validation
throw (caught and normalized, no request made) or the `POST /api/upload`
request it hands to axios. -/
inductive UploadOutcome
  | rejected (message : String)
  | request (r : HttpRequest)
deriving DecidableEq, Repr

/-- Whether an `UploadOutcome` initiates a transfer. -/
def UploadOutcome.sendsRequest : UploadOutcome → Bool
  | .rejected _ => false
  | .request _ => true

/-- `uploadPDF` (part_000 lines 148-191) up to its first suspension point:
reject non-PDF media types, then reject sizes strictly above `MAX_SIZE`,
and only then post the multipart request. -/
def uploadPDF (file : JsFile) : UploadOutcome :=
  if file.type ≠ "application/pdf" then
    .rejected "Invalid file type. Please upload a PDF file."
  else if file.size > MAX_SIZE then
    .rejected "File size exceeds 25 MB limit."
  else
    .request { method := .post, path := "/api/upload", params := [] }

/-! ## Export (part_000 `exportEstimate`, Results.tsx `handleExport`) -/

/-- The `format` union type of `exportEstimate`: exactly the three literals
`csv | json | pdf`. -/
inductive ExportFormat
  | csv
  | json
  | pdf
deriving DecidableEq, Repr

/-- The string each `ExportFormat` literal denotes. -/
def ExportFormat.str : ExportFormat → String
  | .csv => "csv"
  | .json => "json"
  | .pdf => "pdf"

/-- `exportEstimate` (part_000 lines 263-279): a GET of
`/api/estimate/<id>/export` with the single query parameter `format`. -/
def exportEstimate (id : String) (format : ExportFormat) : HttpRequest :=
  { method := .get
    path := "/api/estimate/" ++ id ++ "/export"
    params := [("format", format.str)] }

/-- `handleExport` (Results.tsx lines 183-201): returns without effect when
the route id or the fetched estimate is missing; otherwise requests the
export blob for the route id and suggests the filename
`estimate_<estimate.estimate_id>.<format>` to `downloadFile`. -/
def handleExport (id : Option String) (estimate : Option Estimate)
    (format : ExportFormat) : Option (HttpRequest × String) :=
  match id, estimate with
  | some i, some e =>
    some (exportEstimate i format,
          "estimate_" ++ e.estimate_id ++ "." ++ format.str)
  | _, _ => none

/-! ## Sorting (Results.tsx, `sortedItems`)

`Array.prototype.sort` with a comparator is stable (ES2019); its result on
a consistent comparator `cmp` is the unique stable reordering in which
consecutive elements satisfy `cmp a b ≤ 0`.  It is embedded as insertion
sort over the relation `cmp a b ≤ 0`, which places each element before the
first already-placed element it may precede and therefore keeps the
original relative order of elements the comparator ties. -/

instance decCmpNonpos {α : Type} (cmp : α → α → ℚ) :
    DecidableRel (fun a b : α => cmp a b ≤ 0) :=
  fun a b => inferInstanceAs (Decidable (cmp a b ≤ 0))

/-- Stable comparator sort: the model of `Array.prototype.sort(cmp)`. -/
def jsSort {α : Type} (cmp : α → α → ℚ) (l : List α) : List α :=
  List.insertionSort (fun a b => cmp a b ≤ 0) l

/-- The `SortField` union type of Results.tsx. -/
inductive SortField
  | type
  | quantity
  | cost
  | confidence
deriving DecidableEq, Repr

/-- The `SortDirection` union type of Results.tsx. -/
inductive SortDirection
  | asc
  | desc
deriving DecidableEq, Repr

/-- The comparator body of `sortedItems` (Results.tsx lines 113-145),
parameterized by the locale-aware `localeCompare` (abstract here, returned
as a signed integer).  String keys compare `a.localeCompare(b)` ascending
and `b.localeCompare(a)` descending; numeric keys return `aValue - bValue`
ascending and `bValue - aValue` descending. -/
def itemCompare (localeCompare : String → String → Int)
    (field : SortField) (direction : SortDirection)
    (a b : EstimateItem) : ℚ :=
  match field with
  | .type =>
    match direction with
    | .asc => (localeCompare a.intervention.type b.intervention.type : ℚ)
    | .desc => (localeCompare b.intervention.type a.intervention.type : ℚ)
  | .quantity =>
    match direction with
    | .asc => a.intervention.quantity - b.intervention.quantity
    | .desc => b.intervention.quantity - a.intervention.quantity
  | .cost =>
    match direction with
    | .asc => a.total_cost - b.total_cost
    | .desc => b.total_cost - a.total_cost
  | .confidence =>
    match direction with
    | .asc => a.intervention.confidence - b.intervention.confidence
    | .desc => b.intervention.confidence - a.intervention.confidence

/-- `sortedItems` (Results.tsx lines 108-148) as a list transformation:
copy `estimate.items` and sort the copy with the comparator. -/
def sortedItems (localeCompare : String → String → Int)
    (field : SortField) (direction : SortDirection)
    (items : List EstimateItem) : List EstimateItem :=
  jsSort (itemCompare localeCompare field direction) items

/-- The ordering the claim reads off each sort key: `type` by the locale
compare, the other keys numerically, reversed in the descending
direction. -/
def keyOrder (localeCompare : String → String → Int)
    (field : SortField) (direction : SortDirection)
    (a b : EstimateItem) : Prop :=
  match field, direction with
  | .type, .asc => localeCompare a.intervention.type b.intervention.type ≤ 0
  | .type, .desc => localeCompare b.intervention.type a.intervention.type ≤ 0
  | .quantity, .asc => a.intervention.quantity ≤ b.intervention.quantity
  | .quantity, .desc => b.intervention.quantity ≤ a.intervention.quantity
  | .cost, .asc => a.total_cost ≤ b.total_cost
  | .cost, .desc => b.total_cost ≤ a.total_cost
  | .confidence, .asc => a.intervention.confidence ≤ b.intervention.confidence
  | .confidence, .desc => b.intervention.confidence ≤ a.intervention.confidence

/-- Two items have equal keys for a field: `type` keys are equal when the
locale compare ties them, numeric keys when the numbers are equal. -/
def keyEq (localeCompare : String → String → Int)
    (field : SortField) (a b : EstimateItem) : Prop :=
  match field with
  | .type => localeCompare a.intervention.type b.intervention.type = 0
  | .quantity => a.intervention.quantity = b.intervention.quantity
  | .cost => a.total_cost = b.total_cost
  | .confidence => a.intervention.confidence = b.intervention.confidence

/-! ## Array references (Results.tsx, `sortedItems` frame property)

`sortedItems` spreads `estimate.items` into a fresh array and sorts the
fresh array in place; the fetched estimate keeps pointing at the original
array.  To state that the in-place sort does not touch the source, arrays
live in an explicit store of cells addressed by `Nat` references. -/

/-- A store of item arrays; a reference is an index into the store. -/
structure ArrayStore where
  cells : List (List EstimateItem)
deriving DecidableEq, Repr

/-- Read the array a reference points at (a dangling reference reads as
empty). -/
def readRef (st : ArrayStore) (r : Nat) : List EstimateItem :=
  st.cells.getD r []

/-- Allocate a fresh array cell holding `xs`; returns the new store and the
fresh reference. -/
def allocRef (st : ArrayStore) (xs : List EstimateItem) : ArrayStore × Nat :=
  (⟨st.cells ++ [xs]⟩, st.cells.length)

/-- Overwrite the cell a reference points at. -/
def writeRef (st : ArrayStore) (r : Nat) (xs : List EstimateItem) : ArrayStore :=
  ⟨st.cells.set r xs⟩

/-- `items.sort(cmp)`: sorts the referenced array in place. -/
def sortRefInPlace (st : ArrayStore) (r : Nat)
    (cmp : EstimateItem → EstimateItem → ℚ) : ArrayStore :=
  writeRef st r (jsSort cmp (readRef st r))

/-- The `useMemo` body of `sortedItems` over the store:
`const items = [...estimate.items]` allocates a fresh array with the same
contents, `items.sort(comparator)` mutates only the fresh array, and the
fresh reference is the returned view.  `rItems` is the reference the
fetched estimate holds to its `items` array. -/
def sortedItemsMemo (localeCompare : String → String → Int)
    (field : SortField) (direction : SortDirection)
    (st : ArrayStore) (rItems : Nat) : ArrayStore × Nat :=
  let alloc := allocRef st (readRef st rItems)
  (sortRefInPlace alloc.1 alloc.2 (itemCompare localeCompare field direction),
   alloc.2)

/-! ## Upload page state machine (Upload.tsx) -/

/-- `MAX_FILE_SIZE` of Upload.tsx (line 25): `25 * 1024 * 1024`. -/
def MAX_FILE_SIZE : Nat := 25 * 1024 * 1024

/-- `ACCEPTED_TYPE` of Upload.tsx (line 26). -/
def ACCEPTED_TYPE : String := "application/pdf"

/-- Decimal rendering of `(size / (1024 * 1024)).toFixed(2)` used inside
the size-limit message: megabytes rounded to two decimal places
(round-half-up model of `toFixed`). -/
def formatMB (size : Nat) : String :=
  let centi := (size * 200 + 1024 * 1024) / (2 * 1024 * 1024)
  let frac := centi % 100
  toString (centi / 100) ++ "." ++
    (if frac < 10 then "0" ++ toString frac else toString frac)

/-- `validateFile` (Upload.tsx lines 42-55): `null` on success, a message
on failure; media type is checked before size. -/
def validateFile (selectedFile : JsFile) : Option String :=
  if selectedFile.type ≠ ACCEPTED_TYPE then
    some "Invalid file type. Please select a PDF file."
  else if selectedFile.size > MAX_FILE_SIZE then
    some ("File size (" ++ formatMB selectedFile.size ++
          " MB) exceeds the 25 MB limit.")
  else
    none

/-- The `useState` cells of the Upload page (Upload.tsx lines 32-37);
`dragActive` is pure presentation and is not modeled. -/
structure UploadPageState where
  file : Option JsFile
  uploading : Bool
  progress : Nat
  result : Option EstimateResponse
  error : Option String
deriving DecidableEq, Repr

/-- The initial state of the page (all `useState` initializers). -/
def initialState : UploadPageState :=
  { file := none, uploading := false, progress := 0,
    result := none, error := none }

/-- The events the Upload page handles: a file chosen or dropped
(`handleFileSelect` and `handleDrop` share one body), the upload button
(`handleUpload` up to its first await), an `onUploadProgress` callback, the
resolution or rejection of the `uploadPDF` promise, and `handleReset`. -/
inductive UEvent
  | selectFile (f : JsFile)
  | startUpload
  | uploadProgress (p : Nat)
  | uploadSuccess (r : EstimateResponse)
  | uploadFailure (message : String)
  | reset
deriving DecidableEq, Repr

/-- The handlers of Upload.tsx as one step function.
  * `selectFile` (lines 60-75 and 94-113): an invalid file only sets the
    error; a valid file is stored and error/result are cleared.
  * `startUpload` (lines 118-128): without a file the handler only toasts;
    otherwise it sets `uploading`, zeroes `progress` and clears
    error/result before awaiting `uploadPDF`.
  * `uploadProgress` (lines 133-139 with part_000 lines 176-183): the
    callback stores the reported percentage unconditionally.
  * `uploadSuccess` (lines 141-147, 152-154): stores the response, forces
    `progress` to 100 and drops `uploading`.
  * `uploadFailure` (lines 148-154): stores the message and drops
    `uploading`.
  * `reset` (lines 160-166): restores every cell to its initial value. -/
def step (s : UploadPageState) : UEvent → UploadPageState
  | .selectFile f =>
    match validateFile f with
    | some e => { s with error := some e }
    | none => { s with file := some f, error := none, result := none }
  | .startUpload =>
    match s.file with
    | none => s
    | some _ =>
      { s with uploading := true, progress := 0, error := none, result := none }
  | .uploadProgress p => { s with progress := p }
  | .uploadSuccess r =>
    { s with result := some r, progress := 100, uploading := false }
  | .uploadFailure m => { s with error := some m, uploading := false }
  | .reset => initialState

/-- The states one upload task can reach through the page's own controls.
The guards are the rendering and enabling conditions of Upload.tsx
together with the single-task discipline of the lifecycle (one task at a
time, in-flight callbacks belong to the running transfer):
  * a file can be chosen whenever no result is displayed (the upload
    section renders only when `!result`, line 191).  No `uploading` guard
    applies: although the file input is `disabled={uploading}` (line 222),
    the drop zone keeps its `onDrop={handleDrop}` while a transfer runs
    (lines 194-207 carry no uploading check), and `handleDrop` shares the
    body of `handleFileSelect` — so a selection event can also fire
    mid-transfer;
  * the upload button renders only with a file selected, no transfer
    running and no result displayed (lines 191, 242);
  * progress, success and failure events come from the in-flight
    `uploadPDF` call and are delivered while `uploading` holds;
  * reset is available from any state. -/
inductive Reach : UploadPageState → Prop
  | init : Reach initialState
  | select {s f} : Reach s → s.result = none →
      Reach (step s (.selectFile f))
  | start {s} : Reach s → s.result = none → s.uploading = false →
      Reach (step s .startUpload)
  | progress {s p} : Reach s → s.uploading = true →
      Reach (step s (.uploadProgress p))
  | success {s r} : Reach s → s.uploading = true →
      Reach (step s (.uploadSuccess r))
  | failure {s m} : Reach s → s.uploading = true →
      Reach (step s (.uploadFailure m))
  | reset {s} : Reach s → Reach (step s .reset)

/-! ## Concrete sample values (used by witnesses and counterexamples) -/

/-- A 2 MiB PDF that passes validation. -/
def sampleFile : JsFile :=
  { name := "report.pdf", size := 2097152, type := "application/pdf" }

/-- A text file whose media type fails validation. -/
def invalidTypeFile : JsFile :=
  { name := "notes.txt", size := 100, type := "text/plain" }

/-- A PDF of exactly 26214400 bytes: the size ceiling itself. -/
def boundaryFile : JsFile :=
  { name := "big.pdf", size := 26214400, type := "application/pdf" }

/-- A successful processing response. -/
def sampleResponse : EstimateResponse :=
  { success := true, estimate_id := "abc123", filename := "report.pdf",
    status := "complete", extraction_method := "llm",
    extraction_confidence := 9/10, interventions_found := 3,
    total_cost := 1000, overall_confidence := 9/10,
    processing_time_ms := 1200,
    verification := { status := "passed", passed_count := 3,
                      warning_count := 0, error_count := 0 },
    metadata := [], items := [] }

/-- An intervention sample. -/
def sampleIntervention (t : String) (q conf : ℚ) : Intervention :=
  { type := t, quantity := q, unit := "sqm", location := "km 1",
    confidence := conf, extraction_method := "llm" }

/-- A cheap estimate item. -/
def itemA : EstimateItem :=
  { intervention := sampleIntervention "signage" 10 (9/10), materials := [],
    total_cost := 100, audit_trail := [], assumptions := [] }

/-- An expensive estimate item. -/
def itemB : EstimateItem :=
  { intervention := sampleIntervention "barrier" 4 (7/10), materials := [],
    total_cost := 500, audit_trail := [], assumptions := [] }

/-- A full estimate holding the two sample items. -/
def sampleEstimate : Estimate :=
  { estimate_id := "abc123", filename := "report.pdf",
    created_at := "2025-01-01", status := "complete",
    items := [itemA, itemB], total_cost := 600, confidence := 8/10,
    metadata := [] }

/-- The page state mid-transfer at 40 percent: a valid file was selected,
the upload started and a progress event of 40 arrived. -/
def midTransfer40 : UploadPageState :=
  step (step (step initialState (.selectFile sampleFile)) .startUpload)
    (.uploadProgress 40)

/-- The page state after a completed upload: progress reached 100 and the
success response arrived. -/
def succeededState : UploadPageState :=
  step (step midTransfer40 (.uploadProgress 100)) (.uploadSuccess sampleResponse)

/-- The page state where an invalid file was dropped mid-transfer: the
drop zone stays live while uploading, so the validation message lands in
`error` while `uploading` still holds. -/
def midTransferDropState : UploadPageState :=
  step (step (step initialState (.selectFile sampleFile)) .startUpload)
    (.selectFile invalidTypeFile)

/-- The state after the pending response of that transfer then resolves:
the success path never clears `error`, leaving `error` and `result` both
set. -/
def dropThenSuccessState : UploadPageState :=
  step midTransferDropState (.uploadSuccess sampleResponse)

/-! # Theorems -/

/-- C1: `getConfidenceBadge` is total on `[0,1]` (it is a function into the
three badges) and classifies by the fixed thresholds: `high` iff
`confidence ≥ 0.95`, `medium` iff `0.80 ≤ confidence < 0.95`,
`review-needed` iff `confidence < 0.80`; both boundaries land in the
higher tier. -/
theorem getConfidenceBadge_partition (c : ℚ) (h0 : 0 ≤ c) (h1 : c ≤ 1) :
    (getConfidenceBadge c = .high ↔ 95/100 ≤ c)
    ∧ (getConfidenceBadge c = .medium ↔ 80/100 ≤ c ∧ c < 95/100)
    ∧ (getConfidenceBadge c = .reviewNeeded ↔ c < 80/100) := by
  unfold getConfidenceBadge
  dsimp only
  split_ifs with hA hB
  · exact ⟨⟨fun _ => by linarith, fun _ => by trivial⟩,
      ⟨fun h => h.elim, fun h => by linarith [h.2]⟩,
      ⟨fun h => h.elim, fun h => by linarith⟩⟩
  · rw [not_le] at hA
    exact ⟨⟨fun h => h.elim, fun h => by linarith⟩,
      ⟨fun _ => ⟨by linarith, by linarith⟩, fun _ => by trivial⟩,
      ⟨fun h => h.elim, fun h => by linarith⟩⟩
  · rw [not_le] at hA hB
    exact ⟨⟨fun h => h.elim, fun h => by linarith⟩,
      ⟨fun h => h.elim, fun h => by linarith [h.1]⟩,
      ⟨fun _ => by linarith, fun _ => by trivial⟩⟩

/-- Witness for C1: the boundary values 0.95 and 0.80 land in the higher
tier, and 0 is review-needed. -/
theorem getConfidenceBadge_partition_witness :
    (getConfidenceBadge (95/100) = .high ↔ (95:ℚ)/100 ≤ 95/100)
    ∧ (getConfidenceBadge (80/100) = .medium ↔
        (80:ℚ)/100 ≤ 80/100 ∧ (80:ℚ)/100 < 95/100)
    ∧ (getConfidenceBadge 0 = .reviewNeeded ↔ (0:ℚ) < 80/100) :=
  ⟨(getConfidenceBadge_partition (95/100) (by norm_num) (by norm_num)).1,
   (getConfidenceBadge_partition (80/100) (by norm_num) (by norm_num)).2.1,
   (getConfidenceBadge_partition 0 (by norm_num) (by norm_num)).2.2⟩

/-- C2: a file whose media type is not `application/pdf` or whose size
strictly exceeds 26214400 bytes fails validation with a message and
`uploadPDF` rejects it without building the POST request; conversely the
request is sent, and `validateFile` passes, exactly for PDF files of at
most 26214400 bytes (so the 26214400-byte PDF passes). -/
theorem upload_validation (file : JsFile) :
    ((file.type ≠ "application/pdf" ∨ file.size > 26214400) →
      (∃ m, validateFile file = some m)
      ∧ (∃ m, uploadPDF file = .rejected m)
      ∧ (uploadPDF file).sendsRequest = false)
    ∧ ((validateFile file = none ∧ (uploadPDF file).sendsRequest = true) ↔
        (file.type = "application/pdf" ∧ file.size ≤ 26214400)) := by
  have hmax : MAX_SIZE = 26214400 := by norm_num [MAX_SIZE]
  have hmax2 : MAX_FILE_SIZE = 26214400 := by norm_num [MAX_FILE_SIZE]
  by_cases ht : file.type = "application/pdf"
  · by_cases hs : file.size ≤ 26214400
    · constructor
      · rintro (h | h)
        · exact absurd ht h
        · omega
      · simp [validateFile, uploadPDF, UploadOutcome.sendsRequest,
          ACCEPTED_TYPE, ht, hmax, hmax2, hs, Nat.not_lt.mpr hs]
    · constructor
      · intro _
        refine ⟨⟨"File size (" ++ formatMB file.size ++
            " MB) exceeds the 25 MB limit.", ?_⟩,
          ⟨"File size exceeds 25 MB limit.", ?_⟩, ?_⟩ <;>
          simp [validateFile, uploadPDF, UploadOutcome.sendsRequest,
            ACCEPTED_TYPE, ht, hmax, hmax2, Nat.lt_of_not_le hs]
      · simp [validateFile, uploadPDF, UploadOutcome.sendsRequest,
          ACCEPTED_TYPE, ht, hmax, hmax2, Nat.lt_of_not_le hs, hs]
  · constructor
    · intro _
      refine ⟨⟨"Invalid file type. Please select a PDF file.", ?_⟩,
        ⟨"Invalid file type. Please upload a PDF file.", ?_⟩, ?_⟩ <;>
        simp [validateFile, uploadPDF, UploadOutcome.sendsRequest,
          ACCEPTED_TYPE, ht]
    · simp [validateFile, uploadPDF, UploadOutcome.sendsRequest,
        ACCEPTED_TYPE, ht]

/-- C9: toggling a row index is a self-inverse membership flip that leaves
every other index alone and issues no HTTP request. -/
theorem toggleRow_involution (index : Nat) (s : Finset Nat) :
    toggleRow index (toggleRow index s) = s
    ∧ (index ∈ toggleRow index s ↔ index ∉ s)
    ∧ (∀ j, j ≠ index → (j ∈ toggleRow index s ↔ j ∈ s))
    ∧ (toggleRowEffects index s).2 = [] := by
  refine ⟨?_, ?_, ?_, rfl⟩
  · by_cases h : index ∈ s
    · simp [toggleRow, h, Finset.insert_erase h]
    · simp [toggleRow, h, Finset.erase_insert h]
  · by_cases h : index ∈ s <;> simp [toggleRow, h]
  · intro j hj
    by_cases h : index ∈ s <;> simp [toggleRow, h, hj]

/-- C10: `listEstimates` sends `status_filter` exactly for a truthy (some,
non-empty) filter, so the empty-string filter produces the very same
parameters as no filter; the defaults are `limit = 20`, `offset = 0`. -/
theorem listEstimates_params_spec (limit offset : Nat)
    (statusFilter : Option String) :
    listEstimatesParams limit offset (some "")
      = listEstimatesParams limit offset none
    ∧ ((∃ v, ("status_filter", v) ∈ listEstimatesParams limit offset statusFilter)
        ↔ ∃ s, statusFilter = some s ∧ s ≠ "")
    ∧ listEstimatesParams listEstimatesDefaultLimit listEstimatesDefaultOffset none
        = [("limit", "20"), ("offset", "0")]
    ∧ (listEstimatesRequest limit offset statusFilter).params
        = listEstimatesParams limit offset statusFilter := by
  refine ⟨by simp [listEstimatesParams, jsTruthy], ?_, rfl, rfl⟩
  match statusFilter with
  | none => simp [listEstimatesParams, jsTruthy]
  | some s =>
    by_cases h : s = ""
    · subst h
      simp [listEstimatesParams, jsTruthy]
    · simp [listEstimatesParams, jsTruthy, h]

/-- C4 (the code violates the spec here): after a reset at 40 percent the
still-pending request's events are applied verbatim — a late progress
event moves the displayed progress of the reset (Idle) state to 80, and a
late success response resurrects a result — because `onProgress` calls
`setProgress` unconditionally and `handleReset` neither cancels the axios
call nor tags the task with an identity token. -/
theorem late_events_alter_reset_state :
    step midTransfer40 .reset = initialState
    ∧ midTransfer40.uploading = true
    ∧ midTransfer40.progress = 40
    ∧ (step (step midTransfer40 .reset) (.uploadProgress 80)).progress = 80
    ∧ step (step midTransfer40 .reset) (.uploadProgress 80)
        ≠ step midTransfer40 .reset
    ∧ (step (step midTransfer40 .reset) (.uploadSuccess sampleResponse)).result
        = some sampleResponse := by
  refine ⟨rfl, rfl, rfl, rfl, ?_, rfl⟩
  intro h
  have h2 := congrArg UploadPageState.progress h
  simp [step, initialState] at h2

/-- C5 counterexample: a structured error envelope whose `message` is the
empty string is not surfaced verbatim — `apiError?.message || fallback`
treats it as falsy and throws the status fallback instead. -/
theorem empty_envelope_message_not_verbatim :
    handleApiError
        (.axios (.response 500 (some ⟨true, 500, ""⟩))) = "API Error: 500"
    ∧ ("API Error: 500" : String) ≠ "" :=
  ⟨rfl, by decide⟩

/-- C5 as amended: every caught failure is normalized into exactly the one
message string `handleApiError` computes (no raw failure value reaches the
caller of `apiCallResult`), and an error envelope with a non-empty message
is surfaced verbatim; an empty or missing envelope message falls back to
the status text. -/
theorem handleApiError_normalizes (e : CaughtError) (status : Nat)
    (env : ApiErrorEnvelope) (h : env.message ≠ "") :
    apiCallResult (Except.error e : Except CaughtError Unit)
      = Except.error (handleApiError e)
    ∧ handleApiError (.axios (.response status (some env))) = env.message := by
  refine ⟨rfl, ?_⟩
  simp [handleApiError, h]

/-- Witness for C5: a network failure normalizes to the network message,
and a 404 envelope message is surfaced verbatim. -/
theorem handleApiError_normalizes_witness :
    apiCallResult (Except.error (CaughtError.axios .noResponse) :
        Except CaughtError Unit)
      = Except.error (handleApiError (.axios .noResponse))
    ∧ handleApiError
        (.axios (.response 404 (some ⟨true, 404, "Estimate not found"⟩)))
      = "Estimate not found" :=
  handleApiError_normalizes (.axios .noResponse) 404
    ⟨true, 404, "Estimate not found"⟩ (by decide)

/-- C6 counterexample: selecting a file that fails validation surfaces a
failure reason while the task is still Idle (no file stored, not
uploading, no result) — a non-terminal state with `failureReason` set. -/
theorem validation_failure_sets_error_while_idle :
    ¬ (∀ s : UploadPageState, Reach s →
        s.file = none → s.uploading = false → s.result = none →
        s.error = none) := by
  intro hclaim
  have hreach : Reach (step initialState (.selectFile invalidTypeFile)) :=
    Reach.select Reach.init rfl
  have h := hclaim _ hreach rfl rfl rfl
  simp [step, initialState, validateFile, invalidTypeFile, ACCEPTED_TYPE] at h

/-- C6 as amended: in every state one task can reach, `resultSummary` is
set only in the terminal Succeeded shape (not uploading, progress 100)
and never while transferring or server-processing.  `failureReason` is
not so confined: beyond the terminal Failed state, a client-side
validation failure sets it in Idle/Selected, the still-live drop zone can
set it while Transferring, and — because the success path never clears
it — it can then persist alongside `resultSummary`; the last two
carve-outs are witnessed by reachable states in the final conjuncts. -/
theorem upload_terminal_payload_invariant (s : UploadPageState)
    (hs : Reach s) :
    (s.uploading = true → s.result = none)
    ∧ (s.result ≠ none → s.uploading = false ∧ s.progress = 100)
    ∧ (∃ t, Reach t ∧ t.uploading = true ∧ t.error ≠ none)
    ∧ (∃ t, Reach t ∧ t.error ≠ none ∧ t.result ≠ none) := by
  have main : (s.uploading = true → s.result = none)
      ∧ (s.result ≠ none → s.uploading = false ∧ s.progress = 100) := by
    induction hs with
    | init => simp [initialState]
    | @select s f hr hres ih =>
      cases hv : validateFile f with
      | some e => simp [step, hv, hres]
      | none => simp [step, hv]
    | @start s hr hres hupl ih =>
      cases hf : s.file with
      | none => simpa [step, hf] using ih
      | some f => simp [step, hf]
    | @progress s p hr hupl ih =>
      have hres := ih.1 hupl
      simp [step, hres]
    | @success s r hr hupl ih => simp [step]
    | @failure s m hr hupl ih =>
      have hres := ih.1 hupl
      simp [step, hres]
    | @reset s hr ih => simp [step, initialState]
  have hdrop : Reach midTransferDropState :=
    Reach.select (Reach.start (Reach.select Reach.init rfl) rfl rfl) rfl
  refine ⟨main.1, main.2, ⟨midTransferDropState, hdrop, rfl, by decide⟩,
    ⟨dropThenSuccessState, Reach.success hdrop rfl, by decide, by decide⟩⟩

/-- Witness for C6 (amended): the invariant evaluated at the reachable
Succeeded state of a completed sample upload. -/
theorem upload_terminal_payload_invariant_witness :
    (succeededState.uploading = true → succeededState.result = none)
    ∧ (succeededState.result ≠ none →
        succeededState.uploading = false ∧ succeededState.progress = 100)
    ∧ (∃ t, Reach t ∧ t.uploading = true ∧ t.error ≠ none)
    ∧ (∃ t, Reach t ∧ t.error ≠ none ∧ t.result ≠ none) :=
  upload_terminal_payload_invariant succeededState
    (Reach.success
      (Reach.progress
        (Reach.progress
          (Reach.start (Reach.select Reach.init rfl) rfl rfl) rfl) rfl)
      rfl)

/-- C7: an export always carries exactly the one `format` query parameter,
taken from the three-literal union, and when the displayed estimate is the
one fetched for the route id the suggested filename is exactly
`estimate_<id>.<format>`. -/
theorem export_format_and_filename (id : String) (estimate : Estimate)
    (format : ExportFormat) (hid : estimate.estimate_id = id) :
    handleExport (some id) (some estimate) format
      = some (exportEstimate id format,
              "estimate_" ++ id ++ "." ++ format.str)
    ∧ (exportEstimate id format).params = [("format", format.str)]
    ∧ (format.str = "csv" ∨ format.str = "json" ∨ format.str = "pdf") := by
  refine ⟨?_, rfl, ?_⟩
  · simp [handleExport, hid]
  · cases format <;> simp [ExportFormat.str]

/-- Witness for C7: exporting the sample estimate "abc123" as CSV. -/
theorem export_format_and_filename_witness :
    handleExport (some "abc123") (some sampleEstimate) .csv
      = some (exportEstimate "abc123" .csv,
              "estimate_" ++ "abc123" ++ "." ++ ExportFormat.str .csv)
    ∧ (exportEstimate "abc123" ExportFormat.csv).params
        = [("format", ExportFormat.str .csv)]
    ∧ (ExportFormat.str .csv = "csv" ∨ ExportFormat.str .csv = "json"
        ∨ ExportFormat.str .csv = "pdf") :=
  export_format_and_filename "abc123" sampleEstimate .csv rfl

/-- Setting the freshly appended cell rewrites only that cell. -/
theorem list_set_append_length {α : Type} (A : List α) (c v : α) :
    (A ++ [c]).set A.length v = A ++ [v] := by
  induction A with
  | nil => rfl
  | cons a A ih =>
    show a :: (A ++ [c]).set A.length v = a :: (A ++ [v])
    rw [ih]

/-- Reading the freshly appended cell yields its contents. -/
theorem list_getD_append_self {α : Type} (A : List α) (c d : α) :
    (A ++ [c]).getD A.length d = c := by
  induction A with
  | nil => rfl
  | cons a A ih =>
    show (A ++ [c]).getD A.length d = c
    exact ih

/-- C8: computing the sorted view copies the items array and sorts only
the copy: afterwards the reference the fetched estimate holds to its
items reads exactly as before, for every sort key and direction. -/
theorem sortedItems_never_mutates_source
    (localeCompare : String → String → Int)
    (field : SortField) (direction : SortDirection)
    (st : ArrayStore) (rItems : Nat) :
    readRef (sortedItemsMemo localeCompare field direction st rItems).1 rItems
      = readRef st rItems := by
  unfold sortedItemsMemo allocRef sortRefInPlace writeRef readRef
  dsimp only
  rw [list_set_append_length]
  rcases lt_trichotomy rItems st.cells.length with h | h | h
  · exact List.getD_append _ _ _ _ h
  · subst h
    have hcopy : st.cells.getD st.cells.length [] = [] :=
      List.getD_eq_default _ _ (le_refl _)
    rw [hcopy]
    simp only [list_getD_append_self]
    rfl
  · have hcopy : st.cells.getD rItems [] = [] :=
      List.getD_eq_default _ _ (Nat.le_of_lt h)
    rw [hcopy, list_getD_append_self]
    exact List.getD_eq_default _ _ (by simp; omega)

/-- A comparator whose negative values mirror under argument swap is
total as the relation "may precede". -/
theorem lc_total (lc : String → String → Int)
    (hanti : ∀ s t, lc t s = - lc s t) (s t : String) :
    lc s t ≤ 0 ∨ lc t s ≤ 0 := by
  rcases le_or_lt (lc s t) 0 with h | h
  · exact Or.inl h
  · right
    rw [hanti]
    omega

/-- The comparator of `sortedItems` sorts nonpositively exactly in the
key order of the chosen field and direction. -/
theorem itemCompare_nonpos_iff (lc : String → String → Int)
    (f : SortField) (d : SortDirection) (a b : EstimateItem) :
    itemCompare lc f d a b ≤ 0 ↔ keyOrder lc f d a b := by
  cases f <;> cases d <;>
    simp [itemCompare, keyOrder, sub_nonpos, Int.cast_nonpos]

/-- Totality of the relation `itemCompare · · ≤ 0` for every field and
direction (for the `type` field, granted sign-antisymmetry of the locale
compare). -/
theorem itemCompare_total (lc : String → String → Int)
    (hanti : ∀ s t, lc t s = - lc s t)
    (f : SortField) (d : SortDirection) :
    ∀ a b, itemCompare lc f d a b ≤ 0 ∨ itemCompare lc f d b a ≤ 0 := by
  intro a b
  cases f <;> cases d <;>
    simp only [itemCompare, sub_nonpos, Int.cast_nonpos] <;>
    first
      | exact le_total _ _
      | exact lc_total lc hanti _ _

/-- Transitivity of the relation `itemCompare · · ≤ 0` for every field and
direction (for the `type` field, granted transitivity of the locale
compare). -/
theorem itemCompare_trans (lc : String → String → Int)
    (htrans : ∀ s t u, lc s t ≤ 0 → lc t u ≤ 0 → lc s u ≤ 0)
    (f : SortField) (d : SortDirection) :
    ∀ a b c, itemCompare lc f d a b ≤ 0 → itemCompare lc f d b c ≤ 0 →
      itemCompare lc f d a c ≤ 0 := by
  intro a b c
  cases f <;> cases d <;>
    simp only [itemCompare, sub_nonpos, Int.cast_nonpos] <;>
    intro h1 h2 <;>
    first
      | exact le_trans h1 h2
      | exact le_trans h2 h1
      | exact htrans _ _ _ h1 h2
      | exact htrans _ _ _ h2 h1

/-- Items with equal keys are tied by the comparator in both
directions. -/
theorem keyEq_itemCompare_eq_zero (lc : String → String → Int)
    (hanti : ∀ s t, lc t s = - lc s t)
    (f : SortField) (d : SortDirection) (a b : EstimateItem)
    (h : keyEq lc f a b) : itemCompare lc f d a b = 0 := by
  cases f <;> cases d <;>
    simp only [itemCompare, keyEq] at h ⊢ <;>
    first
      | (rw [h]; simp)
      | (rw [hanti, h]; simp)

/-- C3: for every item list, sort key and direction, the sorted view is a
permutation of the source ordered by that key (the `type` key by the
locale-aware compare, the others numerically — descending reverses the
order), and the sort is stable: any two items the key ties that appear in
a given order in the source appear in that same order in the view.  The
locale compare is assumed sign-antisymmetric and transitive, as
`String.prototype.localeCompare` is required to be. -/
theorem sortedItems_ordered_and_stable
    (localeCompare : String → String → Int)
    (hanti : ∀ s t, localeCompare t s = - localeCompare s t)
    (htrans : ∀ s t u, localeCompare s t ≤ 0 → localeCompare t u ≤ 0 →
      localeCompare s u ≤ 0)
    (field : SortField) (direction : SortDirection)
    (items : List EstimateItem) :
    (sortedItems localeCompare field direction items).Perm items
    ∧ (sortedItems localeCompare field direction items).Pairwise
        (keyOrder localeCompare field direction)
    ∧ (∀ x y, List.Sublist [x, y] items →
        keyEq localeCompare field x y →
        List.Sublist [x, y] (sortedItems localeCompare field direction items)) := by
  unfold sortedItems jsSort
  haveI htot : IsTotal EstimateItem
      (fun a b => itemCompare localeCompare field direction a b ≤ 0) :=
    ⟨itemCompare_total localeCompare hanti field direction⟩
  haveI htr : IsTrans EstimateItem
      (fun a b => itemCompare localeCompare field direction a b ≤ 0) :=
    ⟨itemCompare_trans localeCompare htrans field direction⟩
  refine ⟨List.perm_insertionSort _ _, ?_, ?_⟩
  · have hs := List.sorted_insertionSort
      (fun a b => itemCompare localeCompare field direction a b ≤ 0) items
    exact List.Pairwise.imp
      (fun hab => (itemCompare_nonpos_iff localeCompare field direction _ _).mp hab)
      hs
  · intro x y hsub hkey
    exact List.pair_sublist_insertionSort
      (le_of_eq (keyEq_itemCompare_eq_zero localeCompare hanti field direction
        x y hkey))
      hsub

/-- Witness for C3: sorting the two sample items by cost descending (with
the trivial locale, under which the comparator hypotheses hold) permutes
them into the expensive-first order. -/
theorem sortedItems_ordered_and_stable_witness :
    (sortedItems (fun _ _ => 0) .cost .desc [itemA, itemB]).Perm [itemA, itemB]
    ∧ sortedItems (fun _ _ => 0) .cost .desc [itemA, itemB]
        = [itemB, itemA] := by
  refine ⟨(sortedItems_ordered_and_stable (fun _ _ => 0)
      (fun s t => by simp) (fun s t u h1 h2 => h1) .cost .desc
      [itemA, itemB]).1, ?_⟩
  simp [sortedItems, jsSort, List.insertionSort, List.orderedInsert,
    itemCompare, itemA, itemB]
  norm_num

end Brakes
